import Mathlib

/-!
# OKCVM — verification of the execution-substrate specification

A shallow embedding of the OKCVM server core (`src/okcvm/…`) in Lean 4,
with theorems settling the specification's claims about workspace path
resolution, git-backed snapshots, the agent runtime's history bookkeeping,
the tool registry, tool error behaviour, the SSE streaming bus, and the
deep-copy discipline of the history accessors.

Paths are modelled as lists of POSIX components, workspace trees as
association lists from path to byte contents, and Python's object graph
(for `copy.deepcopy`) as an explicit heap of primitive cells, list cells
and dict cells.
-/

namespace Okcvm

/-! ## Workspace path resolution (`WorkspaceManager.resolve`)

`resolve` receives a raw string, parses it as a POSIX path, strips the
agent-visible mount point when present, anchors the remainder under the
internal root, canonicalises (`Path.resolve`: `..` removal and symlink
chasing, modelled by an arbitrary `canon` function applied to the joined
component list), and finally insists that the canonical result still has
the internal root as a prefix. -/

/-- Error cases raised by the workspace layer (`WorkspaceError`). -/
inductive WsErr where
  | emptyPath : WsErr
  | escape : WsErr
deriving Repr, DecidableEq

/-- Split a character list at `/` separators. -/
def splitAux : List Char → List Char → List String
  | [], acc => [String.mk acc.reverse]
  | c :: rest, acc =>
    if c = '/' then String.mk acc.reverse :: splitAux rest []
    else splitAux rest (c :: acc)

/-- Lexical POSIX parse as done by `PurePosixPath`: split on `/`, drop
empty components and `.` components (`..` is kept). -/
def splitPath (s : String) : List String :=
  (splitAux s.data []).filter (fun c => c ≠ "" && c ≠ ".")

/-- `PurePosixPath.is_absolute`: the string starts with `/`. -/
def isAbsPath (s : String) : Bool :=
  match s.data with
  | [] => false
  | c :: _ => c = '/'

/-- The session-specific path data of a `WorkspaceManager`:
the agent-visible mount point and the resolved internal root, both as
absolute component lists. -/
structure Ws where
  mountParts : List String
  internalRoot : List String
deriving Repr, DecidableEq

/-- Purely lexical canonicalisation of an absolute component list:
`..` drops the last component (and is a no-op at the root), as
`Path.resolve` does on a symlink-free tree. -/
def resolveDots (l : List String) : List String :=
  l.foldl (fun acc c => if c = ".." then acc.dropLast else acc ++ [c]) []

/-- The final guard of `WorkspaceManager.resolve`:
`candidate.relative_to(internal_root)` must succeed, otherwise
`WorkspaceError("Resolved path escapes the session workspace")`. -/
def guardInside (ir : List String) (candidate : List String) :
    Except WsErr (List String) :=
  if ir.isPrefixOf candidate then .ok candidate else .error .escape

theorem guardInside_ok (ir cand c : List String)
    (h : guardInside ir cand = .ok c) : ∃ rest, c = ir ++ rest := by
  unfold guardInside at h
  split at h
  · rename_i hpre
    obtain ⟨rest, hrest⟩ := List.isPrefixOf_iff_prefix.mp hpre
    exact ⟨rest, by rw [← Except.ok.inj h, ← hrest]⟩
  · exact absurd h (by simp)

/-- `WorkspaceManager.resolve` (workspace.py:229-257), POSIX branch.
`canon` stands for `Path.resolve` (use `resolveDots` for a symlink-free
tree; the safety theorem below holds for any canonicalisation, so it
covers symlink chasing as well). -/
def resolvePath (canon : List String → List String) (ws : Ws) (raw : String) :
    Except WsErr (List String) :=
  if raw = "" then .error .emptyPath
  else
    let comps := splitPath raw
    let rel :=
      if isAbsPath raw then
        if ws.mountParts.isPrefixOf comps then comps.drop ws.mountParts.length
        else comps
      else comps
    guardInside ws.internalRoot (canon (ws.internalRoot ++ rel))

/-! ## Git-backed workspace state (`GitWorkspaceState`)

The repository shells out to `git`; the snapshot store itself is not
code under `src/`.  Modelled from the spec: a content-versioned store
with commit-on-demand (`snapshot` = `git add -A && git commit`), and
`restore` = `git rev-parse` (unknown-id check) followed by
`git reset --hard && git clean -fd`, which reinstalls the committed
tree byte for byte. -/

/-- A workspace tree: association list from file path to byte contents.
Lookup takes the first binding. -/
abbrev Tree := List (String × List Nat)

/-- Errors raised by the snapshot layer (`WorkspaceStateError`);
the unknown-snapshot error carries the offending id. -/
inductive WsStateErr where
  | unknownSnapshot : Nat → WsStateErr
  | disabled : WsStateErr
deriving Repr, DecidableEq

/-- Human message of a `WorkspaceStateError`, as formatted by
`GitWorkspaceState.restore`. -/
def wsStateErrMsg : WsStateErr → String
  | .unknownSnapshot sid => "Unknown snapshot: " ++ toString sid
  | .disabled => "Workspace snapshots are disabled"

/-- `GitWorkspaceState`: enabled flag, commit store (id ↦ captured tree,
newest first), a counter supplying fresh commit ids, and the working
tree. -/
structure GitState where
  enabled : Bool
  nextId : Nat
  commits : List (Nat × Tree)
  workTree : Tree
deriving Repr, DecidableEq

/-- `GitWorkspaceState.snapshot` (workspace.py:112-126): on an enabled
state, stage everything and commit the current working tree under a
fresh id; on a disabled state return `none`. -/
def snapshot (st : GitState) (_label : String) : Option Nat × GitState :=
  if st.enabled then
    (some st.nextId,
     { st with nextId := st.nextId + 1,
               commits := (st.nextId, st.workTree) :: st.commits })
  else (none, st)

/-- `GitWorkspaceState.restore` (workspace.py:159-171): disabled states
return `false`; an id absent from the store raises
`WorkspaceStateError("Unknown snapshot: …")`; otherwise
`reset --hard` + `clean -fd` reinstall the committed tree. -/
def restore (st : GitState) (sid : Nat) : Except WsStateErr (Bool × GitState) :=
  if st.enabled then
    match st.commits.lookup sid with
    | none => .error (.unknownSnapshot sid)
    | some t => .ok (true, { st with workTree := t })
  else .ok (false, st)

/-- Reading a file of the workspace tree. -/
def readFile (st : GitState) (p : String) : Option (List Nat) :=
  st.workTree.lookup p

/-- Operations that may hit a workspace between a snapshot and a later
restore: file writes, file removals, further snapshots, restores. -/
inductive WOp where
  | write : String → List Nat → WOp
  | remove : String → WOp
  | snap : String → WOp
  | restoreOp : Nat → WOp
deriving Repr, DecidableEq

/-- One step of workspace activity; a failing restore leaves the state
unchanged (the exception propagates to the caller). -/
def applyWOp (st : GitState) : WOp → GitState
  | .write p c => { st with workTree := (p, c) :: st.workTree.filter (fun kv => kv.1 ≠ p) }
  | .remove p => { st with workTree := st.workTree.filter (fun kv => kv.1 ≠ p) }
  | .snap label => (snapshot st label).2
  | .restoreOp sid =>
    match restore st sid with
    | .ok (_, st') => st'
    | .error _ => st

/-- A whole run of workspace activity. -/
def applyWOps (ops : List WOp) (st : GitState) : GitState :=
  ops.foldl applyWOp st

/-- Well-formedness of the commit store: every stored commit id was
allocated below the fresh-id counter. -/
def GitInv (st : GitState) : Prop :=
  ∀ p ∈ st.commits, p.1 < st.nextId

instance : DecidablePred GitInv := fun st =>
  inferInstanceAs (Decidable (∀ p ∈ st.commits, p.1 < st.nextId))

/-- HTTP response skeleton for the snapshot-restore endpoint. -/
structure HttpResponse where
  status : Nat
  detail : String
deriving Repr, DecidableEq

/-! ### The restore call chain of the HTTP surface

`restore_workspace_snapshot` (api/main.py:903-927) reaches
`GitWorkspaceState.restore` only through
`SessionState.restore_workspace` (session.py:582-600), which invokes
`state.restore(snapshot_id, branch=branch, checkout=checkout)`.  But
`GitWorkspaceState.restore` (workspace.py:159) declares only
`snapshot_id`, so in Python the call raises
`TypeError("restore() got an unexpected keyword argument 'branch'")`
before the body runs; the endpoint's `except WorkspaceStateError`
clause does not catch a `TypeError`, so the framework answers HTTP 500.
(Independently, building a session at all already fails the same way:
session.py:47 calls `ToolRegistry.from_default_spec(workspace=...)`,
which registry.py:49-54 does not accept, and api/main.py:312 surfaces
that as HTTP 500 "Failed to initialise session".) -/

/-- Exceptions that can cross the session layer, as the HTTP surface
distinguishes them. -/
inductive PyExc where
  | wsStateError : WsStateErr → PyExc
  | typeError : String → PyExc
deriving Repr, DecidableEq

/-- The keyword parameters `GitWorkspaceState.restore`
(workspace.py:159) declares besides `snapshot_id`: none. -/
def gitRestoreKwargNames : List String := []

/-- The keyword arguments `SessionState.restore_workspace`
(session.py:594) passes to `state.restore`. -/
def sessionRestoreKwargs : List String := ["branch", "checkout"]

/-- Python call semantics for `state.restore(snapshot_id, **kwargs)`:
a keyword argument the callee does not declare raises `TypeError`
before the body runs; otherwise the body executes and a
`WorkspaceStateError` it raises propagates. -/
def callGitRestore (st : GitState) (sid : Nat) (kwargs : List String) :
    Except PyExc (Bool × GitState) :=
  match kwargs.find? (fun k => ! gitRestoreKwargNames.contains k) with
  | some k =>
    .error (.typeError ("restore() got an unexpected keyword argument '" ++ k ++ "'"))
  | none =>
    match restore st sid with
    | .error e => .error (.wsStateError e)
    | .ok r => .ok r

/-- `SessionState.restore_workspace` (session.py:582-600): raise
`WorkspaceStateError` when snapshots are disabled, otherwise call
`state.restore(snapshot_id, branch=..., checkout=...)`. -/
def sessionRestoreWorkspace (st : GitState) (sid : Nat) :
    Except PyExc (Bool × GitState) :=
  if st.enabled then callGitRestore st sid sessionRestoreKwargs
  else .error (.wsStateError .disabled)

/-- The exception handling of `restore_workspace_snapshot`
(api/main.py:918-927): `except WorkspaceStateError` becomes
`HTTPException(status_code=400, detail=str(exc))`; any other exception
is uncaught and the framework answers a plain HTTP 500. -/
def endpointCatch (st : GitState) :
    Except PyExc (Bool × GitState) → HttpResponse × GitState
  | .ok (_, st') => ({ status := 200, detail := "" }, st')
  | .error (.wsStateError e) => ({ status := 400, detail := wsStateErrMsg e }, st)
  | .error (.typeError _) => ({ status := 500, detail := "Internal Server Error" }, st)

/-- The full `POST /api/session/workspace/restore` behaviour: the
session-layer restore wrapped in the endpoint's exception handling. -/
def restoreSnapshotEndpoint (st : GitState) (sid : Nat) :
    HttpResponse × GitState :=
  endpointCatch st (sessionRestoreWorkspace st sid)

/-! ### Lemmas about the snapshot store -/

theorem restore_ok_fields (st : GitState) (sid : Nat) (b : Bool) (st' : GitState)
    (h : restore st sid = .ok (b, st')) :
    st'.enabled = st.enabled ∧ st'.nextId = st.nextId ∧ st'.commits = st.commits := by
  unfold restore at h
  split at h
  · split at h
    · exact absurd h (by simp)
    · obtain ⟨h1, h2⟩ := Prod.mk.inj (Except.ok.inj h)
      subst h2
      exact ⟨rfl, rfl, rfl⟩
  · obtain ⟨h1, h2⟩ := Prod.mk.inj (Except.ok.inj h)
    subst h2
    exact ⟨rfl, rfl, rfl⟩

theorem applyWOp_enabled (st : GitState) (op : WOp) :
    (applyWOp st op).enabled = st.enabled := by
  cases op with
  | write p c => rfl
  | remove p => rfl
  | snap label =>
    simp only [applyWOp, snapshot]
    split <;> rfl
  | restoreOp sid =>
    simp only [applyWOp]
    split
    · rename_i b st' heq
      exact (restore_ok_fields st sid b st' heq).1
    · rfl

theorem applyWOp_nextId (st : GitState) (op : WOp) :
    st.nextId ≤ (applyWOp st op).nextId := by
  cases op with
  | write p c => exact le_refl _
  | remove p => exact le_refl _
  | snap label =>
    simp only [applyWOp, snapshot]
    split
    · exact Nat.le_succ _
    · exact le_refl _
  | restoreOp sid =>
    simp only [applyWOp]
    split
    · rename_i b st' heq
      exact ((restore_ok_fields st sid b st' heq).2.1).ge
    · exact le_refl _

theorem applyWOp_inv (st : GitState) (op : WOp) (h : GitInv st) :
    GitInv (applyWOp st op) := by
  cases op with
  | write p c => exact h
  | remove p => exact h
  | snap label =>
    simp only [applyWOp, snapshot]
    split
    · intro q hq
      simp only [List.mem_cons] at hq
      rcases hq with hq | hq
      · subst hq; exact Nat.lt_succ_self _
      · exact Nat.lt_succ_of_lt (h q hq)
    · exact h
  | restoreOp sid =>
    simp only [applyWOp]
    split
    · rename_i b st' heq
      obtain ⟨-, hn, hc⟩ := restore_ok_fields st sid b st' heq
      intro q hq
      rw [hn]
      exact h q (hc ▸ hq)
    · exact h

theorem applyWOp_lookup (st : GitState) (op : WOp) (s : Nat) (t : Tree)
    (_hinv : GitInv st) (hs : s < st.nextId) (hl : st.commits.lookup s = some t) :
    (applyWOp st op).commits.lookup s = some t := by
  cases op with
  | write p c => exact hl
  | remove p => exact hl
  | snap label =>
    simp only [applyWOp, snapshot]
    split
    · simp only [List.lookup]
      have hne : (s == st.nextId) = false := by
        simp only [beq_eq_false_iff_ne, ne_eq]
        exact Nat.ne_of_lt hs
      simp [hne, hl]
    · exact hl
  | restoreOp sid =>
    simp only [applyWOp]
    split
    · rename_i b st' heq
      exact (restore_ok_fields st sid b st' heq).2.2 ▸ hl
    · exact hl

theorem applyWOps_lookup (ops : List WOp) (st : GitState) (s : Nat) (t : Tree)
    (hinv : GitInv st) (hs : s < st.nextId) (hl : st.commits.lookup s = some t) :
    (applyWOps ops st).commits.lookup s = some t ∧
      (applyWOps ops st).enabled = st.enabled := by
  induction ops generalizing st with
  | nil => exact ⟨hl, rfl⟩
  | cons op ops ih =>
    have hinv' := applyWOp_inv st op hinv
    have hs' : s < (applyWOp st op).nextId := Nat.lt_of_lt_of_le hs (applyWOp_nextId st op)
    have hl' := applyWOp_lookup st op s t hinv hs hl
    have := ih (applyWOp st op) hinv' hs' hl'
    exact ⟨this.1, this.2.trans (applyWOp_enabled st op)⟩

/-! ## Claim C1 — `resolve` never leaves the sandbox -/

/-- **C1.** For every input string `p`, `WorkspaceManager.resolve(p)`
either fails with a workspace error or returns a path that has the
workspace's `internal_root` as a prefix; the empty path is rejected, and
every `..`-escape therefore fails with a workspace error instead of
producing a path outside `internal_root` (the statement holds for every
canonicalisation function, hence also in the presence of symlinks). -/
theorem resolve_stays_inside_workspace (canon : List String → List String)
    (ws : Ws) (raw : String) :
    resolvePath canon ws "" = .error .emptyPath ∧
    ∀ c, resolvePath canon ws raw = .ok c → ∃ rest, c = ws.internalRoot ++ rest := by
  constructor
  · rfl
  · intro c hc
    simp only [resolvePath] at hc
    split at hc
    · exact absurd hc (by simp)
    · exact guardInside_ok _ _ _ hc

/-- Witness for C1: a session workspace, a benign relative path that
resolves inside the sandbox, plus a concrete check that a `..`-escape is
rejected with a workspace error. -/
theorem resolve_stays_inside_workspace_witness :
    (∃ rest, ["tmp", "okcvm", "sessions", "okcvm-ab12"] ++ ["output", "app.js"] =
      ["tmp", "okcvm", "sessions", "okcvm-ab12"] ++ rest) ∧
    resolvePath resolveDots ⟨["mnt", "okcvm-ab12"], ["tmp", "okcvm", "sessions", "okcvm-ab12"]⟩
      "/mnt/okcvm-ab12/../../../etc/passwd" = .error .escape := by
  constructor
  · exact (resolve_stays_inside_workspace resolveDots
      ⟨["mnt", "okcvm-ab12"], ["tmp", "okcvm", "sessions", "okcvm-ab12"]⟩
      "output/app.js").2
      (["tmp", "okcvm", "sessions", "okcvm-ab12"] ++ ["output", "app.js"]) (by rfl)
  · rfl

/-! ## Claim C2 — snapshot / restore round trip -/

/-- **C2.** Every commit id returned by `snapshot(label)` on an enabled
workspace state can be restored later — after any run of writes,
removals, further snapshots and restores — and the restore reinstalls
exactly the byte-for-byte file contents captured at snapshot time. -/
theorem snapshot_restore_roundtrip (st : GitState) (label : String)
    (ops : List WOp) (hen : st.enabled = true) (hinv : GitInv st) :
    ∃ s st₃, (snapshot st label).1 = some s ∧
      restore (applyWOps ops (snapshot st label).2) s = .ok (true, st₃) ∧
      ∀ p, readFile st₃ p = readFile st p := by
  have hs1 : (snapshot st label).1 = some st.nextId := by simp [snapshot, hen]
  have hs2 : (snapshot st label).2 =
      { st with nextId := st.nextId + 1,
                commits := (st.nextId, st.workTree) :: st.commits } := by
    simp [snapshot, hen]
  have hinv1 : GitInv (snapshot st label).2 := by
    rw [hs2]
    intro q hq
    simp only [List.mem_cons] at hq
    rcases hq with hq | hq
    · subst hq; exact Nat.lt_succ_self _
    · exact Nat.lt_succ_of_lt (hinv q hq)
  have hlt : st.nextId < (snapshot st label).2.nextId := by
    rw [hs2]; exact Nat.lt_succ_self _
  have hlk : (snapshot st label).2.commits.lookup st.nextId = some st.workTree := by
    rw [hs2]; simp [List.lookup]
  obtain ⟨hlk2, hen2⟩ :=
    applyWOps_lookup ops (snapshot st label).2 st.nextId st.workTree hinv1 hlt hlk
  have hen2' : (applyWOps ops (snapshot st label).2).enabled = true := by
    rw [hen2, hs2]; exact hen
  refine ⟨st.nextId, { applyWOps ops (snapshot st label).2 with workTree := st.workTree },
    hs1, ?_, fun p => rfl⟩
  simp [restore, hen2', hlk2]

/-- Witness for C2: a one-file workspace, snapshot, overwrite the file
and snapshot again, then the theorem yields a successful restore of the
first snapshot with the original bytes. -/
theorem snapshot_restore_roundtrip_witness :
    (GitState.mk true 0 [] [("notes.txt", [118, 49])]).enabled = true ∧
    GitInv (GitState.mk true 0 [] [("notes.txt", [118, 49])]) ∧
    ∃ s st₃,
      (snapshot (GitState.mk true 0 [] [("notes.txt", [118, 49])]) "A").1 = some s ∧
      restore (applyWOps [WOp.write "notes.txt" [118, 50], WOp.snap "B"]
        (snapshot (GitState.mk true 0 [] [("notes.txt", [118, 49])]) "A").2) s =
        .ok (true, st₃) ∧
      ∀ p, readFile st₃ p =
        readFile (GitState.mk true 0 [] [("notes.txt", [118, 49])]) p :=
  ⟨rfl, by decide,
   snapshot_restore_roundtrip (GitState.mk true 0 [] [("notes.txt", [118, 49])]) "A"
     [WOp.write "notes.txt" [118, 50], WOp.snap "B"] rfl (by decide)⟩

/-! ## Claim C3 — unknown snapshot id: error and HTTP status -/

/-- Counterexample for C3 as stated: `GitWorkspaceState.restore` does
produce the identifying "Unknown snapshot" error for the unknown id
`99` when called directly — but an actual restore request never
reports 404: the session layer's `state.restore(sid, branch=...,
checkout=...)` call raises `TypeError` before the unknown-id check can
run, and the endpoint answers HTTP **500**. -/
theorem restore_unknown_snapshot_status_counterexample :
    restore (GitState.mk true 1 [(0, [])] []) 99 =
      .error (.unknownSnapshot 99) ∧
    (restoreSnapshotEndpoint (GitState.mk true 1 [(0, [])] []) 99).1.status = 500 ∧
    (restoreSnapshotEndpoint (GitState.mk true 1 [(0, [])] []) 99).1.status ≠ 404 := by
  refine ⟨rfl, rfl, by decide⟩

/-- **C3 (amended).** `GitWorkspaceState.restore` called directly with
an unknown snapshot id on an enabled workspace fails with
`WorkspaceStateError("Unknown snapshot: <id>")` identifying the id —
but the HTTP surface never reports 404 for it:
`SessionState.restore_workspace` passes `branch=`/`checkout=` keyword
arguments that `GitWorkspaceState.restore` does not accept, so every
restore request on an enabled workspace fails with a `TypeError` that
the endpoint's `except WorkspaceStateError` clause does not catch, and
the HTTP surface answers 500 with the state unchanged; had a
`WorkspaceStateError` escaped, the endpoint would map it to status 400
with the message as detail — still not 404. -/
theorem restore_unknown_snapshot_error (st : GitState) (sid : Nat)
    (hen : st.enabled = true) (hnone : st.commits.lookup sid = none) :
    restore st sid = .error (.unknownSnapshot sid) ∧
    wsStateErrMsg (.unknownSnapshot sid) = "Unknown snapshot: " ++ toString sid ∧
    sessionRestoreWorkspace st sid =
      .error (.typeError "restore() got an unexpected keyword argument 'branch'") ∧
    (restoreSnapshotEndpoint st sid).1 =
      { status := 500, detail := "Internal Server Error" } ∧
    (restoreSnapshotEndpoint st sid).2 = st ∧
    ∀ e, endpointCatch st (.error (.wsStateError e)) =
      ({ status := 400, detail := wsStateErrMsg e }, st) := by
  have h1 : restore st sid = .error (.unknownSnapshot sid) := by
    simp [restore, hen, hnone]
  have h2 : sessionRestoreWorkspace st sid =
      .error (.typeError "restore() got an unexpected keyword argument 'branch'") := by
    simp only [sessionRestoreWorkspace, hen, if_true]
    rfl
  refine ⟨h1, rfl, h2, ?_, ?_, fun e => rfl⟩
  · unfold restoreSnapshotEndpoint
    rw [h2]
    rfl
  · unfold restoreSnapshotEndpoint
    rw [h2]
    rfl

/-- Witness for C3 (amended): a concrete enabled state with commit id 0
only, restored at the unknown id 99. -/
theorem restore_unknown_snapshot_error_witness :
    restore (GitState.mk true 1 [(0, [])] []) 99 =
      .error (.unknownSnapshot 99) ∧
    wsStateErrMsg (.unknownSnapshot 99) = "Unknown snapshot: " ++ toString 99 ∧
    sessionRestoreWorkspace (GitState.mk true 1 [(0, [])] []) 99 =
      .error (.typeError "restore() got an unexpected keyword argument 'branch'") ∧
    (restoreSnapshotEndpoint (GitState.mk true 1 [(0, [])] []) 99).1 =
      { status := 500, detail := "Internal Server Error" } ∧
    (restoreSnapshotEndpoint (GitState.mk true 1 [(0, [])] []) 99).2 =
      GitState.mk true 1 [(0, [])] [] ∧
    ∀ e, endpointCatch (GitState.mk true 1 [(0, [])] []) (.error (.wsStateError e)) =
      ({ status := 400, detail := wsStateErrMsg e }, GitState.mk true 1 [(0, [])] []) :=
  restore_unknown_snapshot_error (GitState.mk true 1 [(0, [])] []) 99 rfl (by decide)

/-! ## Agent runtime (`VirtualMachine`, vm.py)

History entries, history-id allocation (`_next_history_id`) and
`execute`.  The agent invocation itself (LangChain) is external; its
outcome is passed in as an `Except`: an exception, or a response dict
with an optional `output` and the recorded intermediate steps. -/

/-- `f"{n:04d}"`: decimal rendering zero-padded to at least four
digits. -/
def pad4 (n : Nat) : String :=
  let s := toString n
  String.mk (List.replicate (4 - s.length) '0') ++ s

/-- `_next_history_id` formatting: `f"{self._history_prefix}-{n:04d}"`. -/
def fmtHistoryId (ns : String) (n : Nat) : String :=
  ns ++ "-" ++ pad4 n

/-- `VirtualMachine.__init__` (vm.py:33-40): the history-id namespace is
the session id of the registry's workspace when the registry has one,
otherwise a random 8-hex-character fallback (`uuid4().hex[:8]`). -/
def historyNamespace (registryWorkspaceSessionId : Option String)
    (fallback : String) : String :=
  match registryWorkspaceSessionId with
  | some sid => sid
  | none => fallback

/-- `ToolRegistry.__init__` (registry.py:44-47) stores only the spec
map, the implementation map and the LangChain wrapper cache; it has no
`workspace` attribute, so `getattr(self.registry, "workspace", None)`
yields `None` for every registry built from this class. -/
def toolRegistryWorkspaceSessionId : Option String := none

/-- One entry of `VirtualMachine.history` as appended by `execute`
(role/content dicts with an allocated id). -/
structure HistoryEntry where
  id : String
  role : String
  content : String
deriving Repr, DecidableEq

/-- The `VirtualMachine` state touched by `execute`: ordered history,
the id namespace, and the `itertools.count(1)` counter (holding the next
value to be produced). -/
structure VMState where
  history : List HistoryEntry
  idNamespace : String
  counter : Nat
deriving Repr, DecidableEq

/-- `record_history_entry` for an entry without a pre-set id: allocate
`<namespace>-<nnnn>` from the counter and append. -/
def recordHistoryEntry (st : VMState) (role content : String) : VMState :=
  { st with
    history := st.history ++ [⟨fmtHistoryId st.idNamespace st.counter, role, content⟩],
    counter := st.counter + 1 }

/-- One intermediate step of the agent loop (`(action, observation)`). -/
structure ToolStep where
  tool : String
  toolInput : String
  observation : String
deriving Repr, DecidableEq

/-- The agent response dict: optional `output`, intermediate steps. -/
structure AgentResponse where
  output : Option String
  intermediateSteps : List ToolStep
deriving Repr, DecidableEq

/-- An element of the returned `tool_calls` list. -/
structure ToolCallInfo where
  toolName : String
  toolInput : String
  toolOutput : String
deriving Repr, DecidableEq

/-- The payload returned by `VirtualMachine.execute`. -/
structure ExecPayload where
  reply : String
  toolCalls : List ToolCallInfo
deriving Repr, DecidableEq

/-- `VirtualMachine.execute` (vm.py:58-118): on an agent exception,
return the error payload without touching history; on success, extract
the reply (default when `output` is missing), append the user and
assistant entries, and surface the intermediate steps as `tool_calls`. -/
def execute (st : VMState) (utterance : String)
    (invokeResult : Except String AgentResponse) : ExecPayload × VMState :=
  match invokeResult with
  | .error e => ({ reply := "An error occurred: " ++ e, toolCalls := [] }, st)
  | .ok resp =>
    let finalReply := resp.output.getD "I'm not sure how to respond to that."
    let st1 := recordHistoryEntry st "user" utterance
    let st2 := recordHistoryEntry st1 "assistant" finalReply
    ({ reply := finalReply,
       toolCalls := resp.intermediateSteps.map fun s => ⟨s.tool, s.toolInput, s.observation⟩ },
     st2)

/-! ## Claim C5 — `execute` failure and success behaviour -/

/-- **C5.** If the agent invocation raises, `execute` returns a payload
whose reply is `"An error occurred: "` followed by the exception text
with an empty `tool_calls` list and leaves the whole VM state (history
included) unchanged; on success exactly one user entry followed by one
assistant entry are appended, in that order, with consecutively
allocated ids. -/
theorem execute_error_leaves_history_success_appends_two
    (st : VMState) (utterance : String) :
    (∀ e, execute st utterance (.error e) =
      ({ reply := "An error occurred: " ++ e, toolCalls := [] }, st)) ∧
    (∀ resp, (execute st utterance (.ok resp)).2.history =
        st.history ++
          [⟨fmtHistoryId st.idNamespace st.counter, "user", utterance⟩,
           ⟨fmtHistoryId st.idNamespace (st.counter + 1), "assistant",
             resp.output.getD "I'm not sure how to respond to that."⟩] ∧
      (execute st utterance (.ok resp)).1.reply =
        resp.output.getD "I'm not sure how to respond to that.") := by
  refine ⟨fun e => rfl, fun resp => ⟨?_, rfl⟩⟩
  simp [execute, recordHistoryEntry]

/-! ## Claim C4 — history-id shape (code bug)

The claim says the namespace is the session id of the registry's
workspace; but `ToolRegistry` (registry.py:44-47) stores no workspace,
so `VirtualMachine.__init__` always takes the random-fallback branch.
(The repository's own tests, e.g. `test_api_flows.py` line 257 and
`test_session.py` line 114, construct and read `registry.workspace`,
and `session.py` line 47 passes `workspace=` to `from_default_spec` —
all impossible against this `ToolRegistry`.)  The counter part of the
claim holds: ids are `<namespace>-<nnnn>`, 4-digit zero-padded,
starting at `0001`, incremented per recorded entry. -/

/-- **C4 (evaluated at the failing input).**  With the repository's
`ToolRegistry` (no `workspace` attribute), the history namespace is the
random 8-hex fallback, which can never equal the workspace session id
(`okcvm-<16 hex>`); the ids still have the `<namespace>-<nnnn>` shape
with the counter starting at `0001` and incrementing by one. -/
theorem history_id_namespace_is_random_fallback :
    historyNamespace toolRegistryWorkspaceSessionId "3f2a9c1d" = "3f2a9c1d" ∧
    "3f2a9c1d" ≠ "okcvm-0123456789abcdef" ∧
    (recordHistoryEntry
      (recordHistoryEntry (VMState.mk [] "3f2a9c1d" 1) "user" "hi")
      "assistant" "hello").history =
      [⟨"3f2a9c1d-0001", "user", "hi"⟩, ⟨"3f2a9c1d-0002", "assistant", "hello"⟩] := by
  refine ⟨rfl, by decide, by decide⟩

/-! ## Tool registry (`ToolRegistry`, registry.py) -/

/-- The registry state: the manifest's spec names (fixed at
construction) and the names with registered implementations. -/
structure Reg where
  specs : List String
  tools : List String
deriving Repr, DecidableEq

/-- `ToolRegistry.register` (registry.py:56-61): raise `KeyError` when
the tool's name has no manifest spec, otherwise bind it. -/
def registerTool (r : Reg) (name : String) : Except String Reg :=
  if name ∈ r.specs then .ok { r with tools := name :: r.tools }
  else .error ("Tool '" ++ name ++ "' is not part of the manifest")

/-- The keys of the default implementation `mapping` in
`register_default_implementations` (registry.py:63-89). -/
def defaultMapping : List String :=
  ["mshtools-todo_read", "mshtools-todo_write", "mshtools-ipython",
   "mshtools-read_file", "mshtools-edit_file", "mshtools-write_file",
   "mshtools-shell", "mshtools-browser_visit", "mshtools-browser_state",
   "mshtools-browser_find", "mshtools-browser_click", "mshtools-browser_input",
   "mshtools-browser_scroll_down", "mshtools-browser_scroll_up",
   "mshtools-web_search", "mshtools-image_search", "mshtools-generate_image",
   "mshtools-get_available_voices", "mshtools-generate_speech",
   "mshtools-generate_sound_effects", "mshtools-get_data_source_desc",
   "mshtools-get_data_source", "mshtools-deploy_website",
   "mshtools-slides_generator"]

/-- `register_default_implementations` (registry.py:63-109): register
every mapped implementation whose name has a spec, then register a stub
for every spec name that has neither a mapped implementation nor an
existing registration.  Every path goes through `register`, which only
accepts manifest names. -/
def registerDefaults (r : Reg) : Reg :=
  let r1 := defaultMapping.foldl
    (fun acc n => if n ∈ acc.specs then { acc with tools := n :: acc.tools } else acc) r
  r1.specs.foldl
    (fun acc n =>
      if n ∉ defaultMapping ∧ n ∉ acc.tools then { acc with tools := n :: acc.tools }
      else acc) r1

/-- Registration activity against a registry. -/
inductive RegOp where
  | reg : String → RegOp
  | regDefaults : RegOp
deriving Repr, DecidableEq

/-- One registration step; a failing `register` raises and leaves the
registry unchanged. -/
def applyRegOp (r : Reg) : RegOp → Reg
  | .reg name =>
    match registerTool r name with
    | .ok r' => r'
    | .error _ => r
  | .regDefaults => registerDefaults r

def applyRegOps (ops : List RegOp) (r : Reg) : Reg :=
  ops.foldl applyRegOp r

theorem registerTool_specs (r : Reg) (name : String) (r' : Reg)
    (h : registerTool r name = .ok r') : r'.specs = r.specs := by
  unfold registerTool at h
  split at h
  · rw [← Except.ok.inj h]
  · exact absurd h (by simp)

theorem registerTool_sub (r : Reg) (name : String) (r' : Reg)
    (hsub : ∀ n ∈ r.tools, n ∈ r.specs)
    (h : registerTool r name = .ok r') : ∀ n ∈ r'.tools, n ∈ r'.specs := by
  unfold registerTool at h
  split at h
  · rename_i hname
    rw [← Except.ok.inj h]
    intro n hn
    simp only [List.mem_cons] at hn
    rcases hn with hn | hn
    · subst hn; exact hname
    · exact hsub n hn
  · exact absurd h (by simp)

theorem registerDefaults_specs (r : Reg) : (registerDefaults r).specs = r.specs := by
  unfold registerDefaults
  have step1 : ∀ (l : List String) (acc : Reg),
      (l.foldl (fun acc n =>
        if n ∈ acc.specs then { acc with tools := n :: acc.tools } else acc) acc).specs
        = acc.specs := by
    intro l
    induction l with
    | nil => intro acc; rfl
    | cons x xs ih =>
      intro acc
      simp only [List.foldl_cons]
      rw [ih]
      split <;> rfl
  have step2 : ∀ (l : List String) (acc : Reg),
      (l.foldl (fun acc n =>
        if n ∉ defaultMapping ∧ n ∉ acc.tools then { acc with tools := n :: acc.tools }
        else acc) acc).specs = acc.specs := by
    intro l
    induction l with
    | nil => intro acc; rfl
    | cons x xs ih =>
      intro acc
      simp only [List.foldl_cons]
      rw [ih]
      split <;> rfl
  rw [step2, step1]

theorem registerDefaults_sub (r : Reg)
    (hsub : ∀ n ∈ r.tools, n ∈ r.specs) :
    ∀ n ∈ (registerDefaults r).tools, n ∈ (registerDefaults r).specs := by
  rw [registerDefaults_specs]
  unfold registerDefaults
  have step1 : ∀ (l : List String) (acc : Reg),
      acc.specs = r.specs → (∀ n ∈ acc.tools, n ∈ r.specs) →
      ((l.foldl (fun acc n =>
        if n ∈ acc.specs then { acc with tools := n :: acc.tools } else acc) acc).specs
          = r.specs ∧
       ∀ n ∈ (l.foldl (fun acc n =>
        if n ∈ acc.specs then { acc with tools := n :: acc.tools } else acc) acc).tools,
          n ∈ r.specs) := by
    intro l
    induction l with
    | nil => intro acc h1 h2; exact ⟨h1, h2⟩
    | cons x xs ih =>
      intro acc h1 h2
      simp only [List.foldl_cons]
      by_cases hx : x ∈ acc.specs
      · rw [if_pos hx]
        refine ih _ h1 ?_
        intro n hn
        simp only [List.mem_cons] at hn
        rcases hn with hn | hn
        · subst hn; exact h1 ▸ hx
        · exact h2 n hn
      · rw [if_neg hx]
        exact ih acc h1 h2
  have step2 : ∀ (l : List String) (acc : Reg),
      (∀ m ∈ l, m ∈ r.specs) → (∀ n ∈ acc.tools, n ∈ r.specs) →
      ∀ n ∈ (l.foldl (fun acc n =>
        if n ∉ defaultMapping ∧ n ∉ acc.tools then { acc with tools := n :: acc.tools }
        else acc) acc).tools, n ∈ r.specs := by
    intro l
    induction l with
    | nil => intro acc _ h2; exact h2
    | cons x xs ih =>
      intro acc h1 h2
      simp only [List.foldl_cons]
      split
      · refine ih _ (fun m hm => h1 m (List.mem_cons_of_mem x hm)) ?_
        intro n hn
        simp only [List.mem_cons] at hn
        rcases hn with hn | hn
        · subst hn; exact h1 n (List.mem_cons_self n xs)
        · exact h2 n hn
      · exact ih acc (fun m hm => h1 m (List.mem_cons_of_mem x hm)) h2
  obtain ⟨hspecs, htools⟩ := step1 defaultMapping r rfl hsub
  exact step2 _ _ (fun m hm => hspecs ▸ hm) htools

/-! ## Claim C9 — registered tools always a subset of the manifest -/

/-- **C9.** `register` raises `KeyError` exactly when the tool's name is
not among the manifest's spec names, and after any sequence of
`register` / `register_default_implementations` operations the set of
registered tool names stays a subset of the manifest's spec names
(which the operations never change). -/
theorem registered_tools_subset_of_manifest (r : Reg) (ops : List RegOp)
    (hsub : ∀ n ∈ r.tools, n ∈ r.specs) :
    (∀ name, (∃ msg, registerTool r name = .error msg) ↔ name ∉ r.specs) ∧
    ∀ n ∈ (applyRegOps ops r).tools, n ∈ (applyRegOps ops r).specs := by
  constructor
  · intro name
    constructor
    · rintro ⟨msg, hmsg⟩ hmem
      unfold registerTool at hmsg
      rw [if_pos hmem] at hmsg
      exact absurd hmsg (by simp)
    · intro hmem
      refine ⟨"Tool '" ++ name ++ "' is not part of the manifest", ?_⟩
      unfold registerTool
      rw [if_neg hmem]
  · induction ops generalizing r with
    | nil => exact hsub
    | cons op ops ih =>
      cases op with
      | reg name =>
        simp only [applyRegOps, List.foldl_cons]
        refine ih (applyRegOp r (.reg name)) ?_
        simp only [applyRegOp]
        split
        · rename_i r' heq
          exact (registerTool_specs r name r' heq) ▸ registerTool_sub r name r' hsub heq
        · exact hsub
      | regDefaults =>
        simp only [applyRegOps, List.foldl_cons]
        exact ih (registerDefaults r) (registerDefaults_sub r hsub)

/-- Witness for C9: the default spec set restricted to two names, one
registration of a mapped tool, one defaults pass, and a rejected
off-manifest registration. -/
theorem registered_tools_subset_of_manifest_witness :
    (∀ n ∈ (Reg.mk ["mshtools-shell", "extra-tool"] []).tools,
        n ∈ (Reg.mk ["mshtools-shell", "extra-tool"] []).specs) ∧
    ((∀ name, (∃ msg,
        registerTool (Reg.mk ["mshtools-shell", "extra-tool"] []) name = .error msg) ↔
        name ∉ (Reg.mk ["mshtools-shell", "extra-tool"] []).specs) ∧
      ∀ n ∈ (applyRegOps [RegOp.reg "mshtools-shell", RegOp.regDefaults,
              RegOp.reg "not-in-manifest"]
            (Reg.mk ["mshtools-shell", "extra-tool"] [])).tools,
        n ∈ (applyRegOps [RegOp.reg "mshtools-shell", RegOp.regDefaults,
              RegOp.reg "not-in-manifest"]
            (Reg.mk ["mshtools-shell", "extra-tool"] [])).specs) :=
  ⟨by simp,
   registered_tools_subset_of_manifest (Reg.mk ["mshtools-shell", "extra-tool"] [])
     [RegOp.reg "mshtools-shell", RegOp.regDefaults, RegOp.reg "not-in-manifest"]
     (by simp)⟩

/-! ## Tool layer (`tools/base.py`, `files.py`, `ipython.py`, `shell.py`, `stubs.py`)

`ToolResult` is the envelope dataclass.  Failure behaviour is
per-tool: the file tools raise `ToolError` on misuse, `ShellTool`
raises `ValueError` on a missing command, while `IPythonTool` (missing
code), `ShellTool` (nonzero exit) and `StubTool` return `success=false`
envelopes.  `ToolRegistry.call` (registry.py:117-119) dispatches
without catching, so whatever a tool raises propagates out of `call`;
raised exceptions are the `.error` side of an `Except ToolExc`. -/

/-- The `ToolResult` dataclass (tools/base.py:15-22).  `data` carries an
opaque JSON payload, abbreviated to an optional string. -/
structure ToolResult where
  success : Bool
  output : Option String := none
  data : Option String := none
  error : Option String := none
deriving Repr, DecidableEq

/-- Exceptions the tool layer can raise out of `ToolRegistry.call`:
`ToolError` (tools/base.py:11), plain `ValueError` (shell.py:17), and
the registry's own `KeyError` (registry.py:111-115). -/
inductive ToolExc where
  | toolError : String → ToolExc
  | valueError : String → ToolExc
  | keyError : String → ToolExc
deriving Repr, DecidableEq

/-- Human message of a `WorkspaceError` (workspace.py:233,255). -/
def wsErrMsg : WsErr → String
  | .emptyPath => "file_path cannot be empty"
  | .escape => "Resolved path escapes the session workspace"

/-- Rendering a component list as an absolute POSIX path string. -/
def joinPath (p : List String) : String :=
  p.foldl (fun acc c => acc ++ "/" ++ c) ""

/-- `_ensure_absolute` (files.py:15-35), POSIX branch.  With a
workspace: try `workspace.resolve`; on `WorkspaceError` re-raise as
`ToolError` only when the path is relative — an absolute path falls
through the `except` block and is returned raw.  Without a workspace:
absolute paths are returned as-is, relative ones raise. -/
def ensureAbsolute (ws : Option Ws) (canon : List String → List String)
    (pathStr : String) : Except String (List String) :=
  match ws with
  | some w =>
    match resolvePath canon w pathStr with
    | .ok p => .ok p
    | .error e =>
      if isAbsPath pathStr then .ok (splitPath pathStr)
      else .error (wsErrMsg e)
  | none =>
    if isAbsPath pathStr then .ok (splitPath pathStr)
    else .error "file_path must be absolute"

/-- The keyword arguments of the modelled tools (`**kwargs` dicts;
absent keys read as `None` / falsy defaults). -/
structure ToolArgs where
  file_path : Option String := none
  offset : Nat := 0
  limit : Option Nat := none
  code : Option String := none
  reset : Bool := false
  command : Option String := none
deriving Repr, DecidableEq

/-- `ReadFileTool.call` (files.py:49-74), text branch: a missing or
empty `file_path` raises `ToolError("'file_path' is required")`; the
path is resolved through `_ensure_absolute`; a missing file raises
`ToolError("File not found: …")`; otherwise the requested line slice
is returned as a successful `ToolResult`.  The filesystem is the
function `fs` from resolved component paths to line lists. -/
def readFileCall (ws : Option Ws) (canon : List String → List String)
    (fs : List String → Option (List String)) (args : ToolArgs) :
    Except ToolExc ToolResult :=
  match args.file_path with
  | none => .error (.toolError "'file_path' is required")
  | some p =>
    if p = "" then .error (.toolError "'file_path' is required")
    else
      match ensureAbsolute ws canon p with
      | .error e => .error (.toolError e)
      | .ok path =>
        match fs path with
        | none => .error (.toolError ("File not found: " ++ joinPath path))
        | some lines =>
          let sliced :=
            match args.limit with
            | none => lines.drop args.offset
            | some l => (lines.drop args.offset).take l
          .ok { success := true, output := some (String.join sliced),
                data := some (String.join sliced) }

/-- `IPythonTool.call` (ipython.py:21-61): `reset` clears and succeeds;
a missing or empty `code` **returns** (does not raise)
`ToolResult(success=False, error="'code' argument is required")`;
otherwise the interpreter outcome is external and passed in:
`execErr` is the formatted traceback of a failing `exec` (success iff
absent) and `outputText` the captured stdout (empty becomes `None`);
the `globals`-listing `data` payload is elided. -/
def ipythonCall (execErr : Option String) (outputText : String)
    (args : ToolArgs) : Except ToolExc ToolResult :=
  if args.reset then
    .ok { success := true, output := some "Environment reset", data := some "reset" }
  else
    match args.code with
    | none => .ok { success := false, error := some "'code' argument is required" }
    | some c =>
      if c = "" then .ok { success := false, error := some "'code' argument is required" }
      else
        .ok { success := execErr.isNone,
              output := if outputText = "" then none else some outputText,
              error := execErr }

/-- The outcome of the external subprocess run by `ShellTool`. -/
structure ProcResult where
  returncode : Int
  stdout : String
  stderr : String
deriving Repr, DecidableEq

/-- `ShellTool.call` (shell.py:14-32): a missing or empty `command`
raises `ValueError("'command' argument is required")` — a plain
`ValueError`, not a `ToolError`; otherwise success iff exit code 0,
with the combined stdout+stderr echoed as output and, on failure, as
the error message (`combined or "Command failed"`); the `data` dict is
abbreviated to its `returncode` field. -/
def shellCall (run : ProcResult) (args : ToolArgs) : Except ToolExc ToolResult :=
  match args.command with
  | none => .error (.valueError "'command' argument is required")
  | some c =>
    if c = "" then .error (.valueError "'command' argument is required")
    else
      let combined := run.stdout ++ run.stderr
      let ok := run.returncode == 0
      .ok { success := ok,
            output := some combined,
            data := some (toString run.returncode),
            error := if ok then none
                     else if combined = "" then some "Command failed"
                     else some combined }

/-- `StubTool.call` (tools/stubs.py:18-19): always a failure envelope
with the fixed message. -/
def stubCall (message : String) (_args : ToolArgs) : Except ToolExc ToolResult :=
  .ok { success := false, error := some message }

/-- `ToolRegistry.call` (registry.py:117-119): look the tool up
(`KeyError` when unregistered) and invoke it; nothing catches what the
tool raises, so exceptions propagate to the caller. -/
def registryCall (tools : List (String × (ToolArgs → Except ToolExc ToolResult)))
    (name : String) (args : ToolArgs) : Except ToolExc ToolResult :=
  match tools.lookup name with
  | none => .error (.keyError ("Tool '" ++ name ++ "' is not registered"))
  | some f => f args

/-- A one-line message: no newline characters. -/
def isSingleLine (s : String) : Bool :=
  s.data.all (fun c => c ≠ '\n')

/-! ## Claim C8 — tool misuse: envelope or exception? -/

/-- Counterexample for C8 as stated: dispatching the registered
`mshtools-read_file` tool through `ToolRegistry.call` with the
`file_path` argument missing does **not** return a `ToolResult` with
`success=false` — the `ToolError` exception propagates out of `call`
(the repository's own tests, `test_tools_files.py:29-42`, expect the
raise). -/
theorem registry_call_missing_arg_counterexample :
    registryCall [("mshtools-read_file", readFileCall none resolveDots (fun _ => none))]
      "mshtools-read_file" { file_path := none } =
      .error (.toolError "'file_path' is required") := rfl

/-- **C8 (amended).**  Tool failure behaviour is per-tool, not the
uniform `success=false` envelope of the claim, and `ToolRegistry.call`
catches nothing, so what a tool raises escapes the call:
the file tools raise `ToolError` with a one-line message for a missing
argument and for a workspace violation on a relative path;
`ShellTool` raises `ValueError` (not `ToolError`) for a missing
command; `IPythonTool` returns a `success=false` envelope with a
one-line message for missing code; `StubTool` always returns such an
envelope; and `ShellTool` returns a `success=false` envelope whose
error echoes the combined process output (not necessarily one line) on
nonzero exit. -/
theorem tool_misuse_envelope_or_exception (ws : Option Ws)
    (canon : List String → List String) (fs : List String → Option (List String)) :
    (∀ args : ToolArgs, args.file_path = none →
      registryCall [("mshtools-read_file", readFileCall ws canon fs)]
        "mshtools-read_file" args = .error (.toolError "'file_path' is required")) ∧
    isSingleLine "'file_path' is required" = true ∧
    (∀ (args : ToolArgs) msg, stubCall msg args =
      .ok { success := false, output := none, data := none, error := some msg }) ∧
    (∀ (args : ToolArgs) w rel, isAbsPath rel = false →
      resolvePath canon w rel = .error .escape →
      readFileCall (some w) canon fs { args with file_path := some rel } =
        .error (.toolError (wsErrMsg .escape))) ∧
    (∀ args : ToolArgs, args.reset = false → args.code = none →
      ∀ execErr outputText, ipythonCall execErr outputText args =
        .ok { success := false, output := none, data := none,
              error := some "'code' argument is required" }) ∧
    isSingleLine "'code' argument is required" = true ∧
    (∀ args : ToolArgs, args.command = none →
      ∀ run, registryCall [("mshtools-shell", shellCall run)] "mshtools-shell" args =
        .error (.valueError "'command' argument is required")) ∧
    (∀ (args : ToolArgs) (run : ProcResult) c, args.command = some c → c ≠ "" →
      run.returncode ≠ 0 →
      ∃ r, shellCall run args = .ok r ∧ r.success = false ∧ r.error.isSome = true) := by
  refine ⟨?_, by decide, fun args msg => rfl, ?_, ?_, by decide, ?_, ?_⟩
  · intro args hmissing
    show readFileCall ws canon fs args = .error (.toolError "'file_path' is required")
    simp [readFileCall, hmissing]
  · intro args w rel habs hres
    have hnonempty : rel ≠ "" := by
      intro h
      subst h
      simp [resolvePath] at hres
    simp only [readFileCall]
    rw [if_neg hnonempty]
    simp only [ensureAbsolute, hres, habs]
    simp
  · intro args hreset hcode execErr outputText
    simp [ipythonCall, hreset, hcode]
  · intro args hcmd run
    show shellCall run args = .error (.valueError "'command' argument is required")
    simp [shellCall, hcmd]
  · intro args run c hc hne hrc
    have hok : (run.returncode == 0) = false := beq_eq_false_iff_ne.mpr hrc
    refine ⟨{ success := false, output := some (run.stdout ++ run.stderr),
              data := some (toString run.returncode),
              error := if run.stdout ++ run.stderr = "" then some "Command failed"
                       else some (run.stdout ++ run.stderr) }, ?_, rfl, ?_⟩
    · simp [shellCall, hc, hne, hok]
    · split <;> rfl

/-- Witness for C8 (amended): the empty argument set against a
workspace-free read tool, a stub, the missing-code interpreter call,
the missing-command shell call, a failing shell run (`exit 1` with
output `"boom"`), and the concrete relative escape `../../etc/passwd`. -/
theorem tool_misuse_envelope_or_exception_witness :
    registryCall [("mshtools-read_file", readFileCall none resolveDots (fun _ => none))]
      "mshtools-read_file" {} = .error (.toolError "'file_path' is required") ∧
    isSingleLine "'file_path' is required" = true ∧
    stubCall "This tool is not yet implemented in OKCVM; contributions welcome!" {} =
      .ok { success := false, output := none, data := none,
            error := some "This tool is not yet implemented in OKCVM; contributions welcome!" } ∧
    readFileCall (some ⟨["mnt", "okcvm-ab12"], ["tmp", "okcvm", "sessions", "okcvm-ab12"]⟩)
      resolveDots (fun _ => none) { ({} : ToolArgs) with file_path := some "../../etc/passwd" } =
      .error (.toolError (wsErrMsg .escape)) ∧
    ipythonCall none "" {} =
      .ok { success := false, output := none, data := none,
            error := some "'code' argument is required" } ∧
    isSingleLine "'code' argument is required" = true ∧
    registryCall [("mshtools-shell", shellCall ⟨1, "boom", ""⟩)] "mshtools-shell" {} =
      .error (.valueError "'command' argument is required") ∧
    ∃ r, shellCall ⟨1, "boom", ""⟩ { command := some "false" } = .ok r ∧
      r.success = false ∧ r.error.isSome = true := by
  obtain ⟨hA, hB, hC, hD, hE, hF, hG, hH⟩ :=
    tool_misuse_envelope_or_exception none resolveDots (fun _ => none)
  exact ⟨hA {} rfl, hB,
         hC {} "This tool is not yet implemented in OKCVM; contributions welcome!",
         hD {} ⟨["mnt", "okcvm-ab12"], ["tmp", "okcvm", "sessions", "okcvm-ab12"]⟩
           "../../etc/passwd" (by rfl) (by rfl),
         hE {} rfl rfl none "", hF,
         hG {} rfl ⟨1, "boom", ""⟩,
         hH { command := some "false" } ⟨1, "boom", ""⟩ "false" rfl (by decide) (by decide)⟩

/-! ## Browser scroll (`BrowserScrollTool.call`, browser.py:506-537)

Static-mode branch (the Selenium branch delegates the arithmetic to a
real browser).  `scroll_down` sets `min(pos + amount, amount)`;
`scroll_up` sets `max(pos - amount, 0)`. -/

/-- The scroll-relevant browser session state
(`BrowserSession.scroll_position` starts at 0). -/
structure BSession where
  currentUrl : Option String
  scrollPos : Int
deriving Repr, DecidableEq

/-- The static-mode scroll arithmetic of `BrowserScrollTool.call`. -/
def scrollStatic (direction : Int) (pos amount : Int) : Int :=
  if direction > 0 then min (pos + amount) amount else max (pos - amount) 0

/-- `BrowserScrollTool.call` in static mode: require an active session,
default `scroll_amount` to 400, update the scroll position. -/
def browserScrollCall (direction : Int) (s : BSession) (amount : Option Int) :
    Except String BSession :=
  match s.currentUrl with
  | none => .error "没有活动的浏览器会话。请先调用 browser_visit。"
  | some _ =>
    .ok { s with scrollPos := scrollStatic direction s.scrollPos (amount.getD 400) }

/-! ## Claim C7 — scroll position stays ≥ 0 -/

/-- Counterexample for C7 as stated: `scroll_down` with the integer
argument `scroll_amount = -1` from position 0 records the negative
position `min(0 + (-1), -1) = -1`. -/
theorem scroll_down_negative_counterexample :
    browserScrollCall 1 ⟨some "http://example.com", 0⟩ (some (-1)) =
      .ok ⟨some "http://example.com", -1⟩ ∧
    scrollStatic 1 0 (-1) < 0 := by
  refine ⟨rfl, by decide⟩

/-- **C7 (amended).**  Starting from a non-negative scroll position,
`scroll_up` keeps the position ≥ 0 for every integer amount, and
`scroll_down` keeps it ≥ 0 for every non-negative amount (negative
`scroll_down` amounts can drive it below zero). -/
theorem scroll_position_nonneg (s : BSession) (amount : Int)
    (hpos : 0 ≤ s.scrollPos) :
    (∀ s', browserScrollCall (-1) s (some amount) = .ok s' → 0 ≤ s'.scrollPos) ∧
    (0 ≤ amount →
      ∀ s', browserScrollCall 1 s (some amount) = .ok s' → 0 ≤ s'.scrollPos) := by
  constructor
  · intro s' hs'
    unfold browserScrollCall at hs'
    split at hs'
    · exact absurd hs' (by simp)
    · rw [← Except.ok.inj hs']
      simp only [scrollStatic, Option.getD]
      norm_num
  · intro ha s' hs'
    unfold browserScrollCall at hs'
    split at hs'
    · exact absurd hs' (by simp)
    · rw [← Except.ok.inj hs']
      simp only [scrollStatic, Option.getD]
      rw [if_pos (by norm_num)]
      exact le_min (add_nonneg hpos ha) ha

/-- Witness for C7 (amended): scroll up by 3 from position 5 lands at 2,
scroll down by 3 from position 5 lands at 3 — both ≥ 0. -/
theorem scroll_position_nonneg_witness :
    (0 : Int) ≤ (BSession.mk (some "http://example.com") 2).scrollPos ∧
    (0 : Int) ≤ (BSession.mk (some "http://example.com") 3).scrollPos :=
  ⟨(scroll_position_nonneg ⟨some "http://example.com", 5⟩ 3 (by decide)).1
      ⟨some "http://example.com", 2⟩ (by rfl),
   (scroll_position_nonneg ⟨some "http://example.com", 5⟩ 3 (by decide)).2
      (by decide) ⟨some "http://example.com", 3⟩ (by rfl)⟩

/-! ## Streaming bus (`EventStreamPublisher.iter_sse`, streaming.py:63-76)

The SSE iterator drains the queue: a `None` sentinel stops it, every
event is yielded as a frame, and after yielding an event whose type is
`final` or `error` the iterator breaks — before ever reaching a queued
`stop` event. -/

/-- The SSE event vocabulary of the chat stream. -/
inductive SEvent where
  | token : String → SEvent
  | toolStarted : String → SEvent
  | toolCompleted : String → SEvent
  | finalEv : String → SEvent
  | errorEv : String → SEvent
  | stopEv : SEvent
deriving Repr, DecidableEq

/-- The `type` field of an event dict. -/
def eventType : SEvent → String
  | .token _ => "token"
  | .toolStarted _ => "tool_started"
  | .toolCompleted _ => "tool_completed"
  | .finalEv _ => "final"
  | .errorEv _ => "error"
  | .stopEv => "stop"

/-- `iter_sse` over the queued items (`none` is the `close()` sentinel):
yield each event; stop after a `final`/`error` event or at the
sentinel. -/
def iterSse : List (Option SEvent) → List SEvent
  | [] => []
  | none :: _ => []
  | some e :: rest =>
    if eventType e = "final" ∨ eventType e = "error" then [e]
    else e :: iterSse rest

/-- The queue produced by the chat endpoint's `_run_stream`
(api/main.py:809-841): the handler's events, then `final` (or `error`
on an exception), then — in the `finally` block — `stop` and the close
sentinel. -/
def chatStreamQueue (pre : List SEvent) (result : Except String String) :
    List (Option SEvent) :=
  match result with
  | .ok payload => pre.map some ++ [some (.finalEv payload), some .stopEv, none]
  | .error msg => pre.map some ++ [some (.errorEv msg), some .stopEv, none]

/-! ## Claim C6 — the stream ends at `final`; `stop` is never delivered -/

/-- **C6 (evaluated at the failing input).** For a successful streaming
chat turn the delivered frames end with the `final` frame: the iterator
terminates immediately after it, so the queued `stop` frame is never
emitted — contradicting both the claim and the repository's own test
`test_event_stream_publisher_emits_stop_event`, which expects
`[final, stop]` from this very queue. -/
theorem stream_ends_at_final_stop_never_delivered :
    iterSse (chatStreamQueue [] (.ok "done")) = [SEvent.finalEv "done"] ∧
    iterSse [some (SEvent.finalEv "done"), some SEvent.stopEv, none] ≠
      [SEvent.finalEv "done", SEvent.stopEv] ∧
    iterSse (chatStreamQueue [SEvent.token "Hel", SEvent.token "lo"] (.ok "done")) =
      [SEvent.token "Hel", SEvent.token "lo", SEvent.finalEv "done"] := by
  refine ⟨rfl, by decide, rfl⟩

/-! ## Python object graphs and `copy.deepcopy` (vm.py:144-161)

`get_history` returns `copy.deepcopy(self.history)` and
`get_history_entry` returns `copy.deepcopy(item)` for the last entry
whose `id` matches.  Python aliasing is modelled with an explicit heap:
a list of cells (primitive, list-of-addresses, dict-of-addresses), where
an address is an index into the heap.  `deepcopy` appends a fresh copy
of the reachable subgraph; mutation is `List.set` at an address.
Reading decodes an address into a pure value (`JVal`), with fuel
bounding the depth (Python's object graphs here are acyclic). -/

/-- A Python heap cell: primitive value, list object (element
addresses) or dict object (string keys to value addresses). -/
inductive PyVal where
  | prim : String → PyVal
  | arrObj : List Nat → PyVal
  | dictObj : List (String × Nat) → PyVal
deriving Repr, DecidableEq

/-- A heap: cell at address `i` is entry `i` of the list. -/
abbrev Heap := List PyVal

/-- A pure (heap-free) value: what a history entry *is*, independent of
where it lives. -/
inductive JVal where
  | prim : String → JVal
  | arr : List JVal → JVal
  | obj : List (String × JVal) → JVal

/-- Decode each address of a list with the element decoder `f`. -/
def readSeq (f : Nat → Option JVal) : List Nat → Option (List JVal)
  | [] => some []
  | a :: as =>
    match f a with
    | none => none
    | some v =>
      match readSeq f as with
      | none => none
      | some vs => some (v :: vs)

/-- Decode each value address of a key/value list. -/
def readKVSeq (f : Nat → Option JVal) :
    List (String × Nat) → Option (List (String × JVal))
  | [] => some []
  | kv :: kvs =>
    match f kv.2 with
    | none => none
    | some v =>
      match readKVSeq f kvs with
      | none => none
      | some ps => some ((kv.1, v) :: ps)

/-- Decode the object at address `a` of heap `h` into a pure value,
with recursion depth bounded by `fuel`. -/
def readVal : Nat → Heap → Nat → Option JVal
  | 0, _, _ => none
  | fuel+1, h, a =>
    match h[a]? with
    | none => none
    | some (.prim s) => some (.prim s)
    | some (.arrObj as) => (readSeq (fun b => readVal fuel h b) as).map JVal.arr
    | some (.dictObj kvs) => (readKVSeq (fun b => readVal fuel h b) kvs).map JVal.obj

/-- Decode a list of addresses (the `history` list of entry objects). -/
def readMany (fuel : Nat) (h : Heap) (as : List Nat) : Option (List JVal) :=
  readSeq (fun b => readVal fuel h b) as

/-- Copy each address of a list with the element copier `f`, threading
the growing heap. -/
def copySeq (f : Heap → Nat → Option (Heap × Nat)) :
    Heap → List Nat → Option (Heap × List Nat)
  | h, [] => some (h, [])
  | h, a :: as =>
    match f h a with
    | none => none
    | some (h₂, b) =>
      match copySeq f h₂ as with
      | none => none
      | some (h₃, bs) => some (h₃, b :: bs)

/-- Copy each value address of a key/value list. -/
def copyKVSeq (f : Heap → Nat → Option (Heap × Nat)) :
    Heap → List (String × Nat) → Option (Heap × List (String × Nat))
  | h, [] => some (h, [])
  | h, kv :: kvs =>
    match f h kv.2 with
    | none => none
    | some (h₂, b) =>
      match copyKVSeq f h₂ kvs with
      | none => none
      | some (h₃, ps) => some (h₃, (kv.1, b) :: ps)

/-- `copy.deepcopy` of the object at address `a`: recursively copy the
children, then append a fresh cell; returns the extended heap and the
address of the copy. -/
def copyVal : Nat → Heap → Nat → Option (Heap × Nat)
  | 0, _, _ => none
  | fuel+1, h, a =>
    match h[a]? with
    | none => none
    | some (.prim s) => some (h ++ [.prim s], h.length)
    | some (.arrObj as) =>
      match copySeq (fun h' b => copyVal fuel h' b) h as with
      | none => none
      | some (h₂, bs) => some (h₂ ++ [.arrObj bs], h₂.length)
    | some (.dictObj kvs) =>
      match copyKVSeq (fun h' b => copyVal fuel h' b) h kvs with
      | none => none
      | some (h₂, ps) => some (h₂ ++ [.dictObj ps], h₂.length)

/-- The VM state relevant to the history accessors: the heap and the
addresses of the stored history entries. -/
structure VMHeap where
  heap : Heap
  history : List Nat
deriving Repr, DecidableEq

/-- `VirtualMachine.get_history` (vm.py:144-146):
`copy.deepcopy(self.history)` — a fresh list of fresh deep copies. -/
def vmGetHistory (fuel : Nat) (vm : VMHeap) : Option (Heap × List Nat) :=
  copySeq (fun h b => copyVal fuel h b) vm.heap vm.history

/-- `item.get("id")` of the entry object stored at address `a`. -/
def entryIdAt (h : Heap) (a : Nat) : Option String :=
  match h[a]? with
  | some (.dictObj kvs) =>
    match kvs.lookup "id" with
    | some b =>
      match h[b]? with
      | some (.prim s) => some s
      | _ => none
    | none => none
  | _ => none

/-- `VirtualMachine.get_history_entry` (vm.py:157-161): scan the
history from the end, return `copy.deepcopy(item)` of the first entry
whose id matches, else `None`. -/
def vmGetHistoryEntry (fuel : Nat) (vm : VMHeap) (eid : String) :
    Option (Heap × Nat) :=
  match vm.history.reverse.find? (fun a => entryIdAt vm.heap a == some eid) with
  | none => none
  | some a => copyVal fuel vm.heap a

/-! ### Decoder lemmas -/

theorem readSeq_mono {f g : Nat → Option JVal}
    (hfg : ∀ a v, f a = some v → g a = some v) :
    ∀ (as : List Nat) (vs : List JVal),
      readSeq f as = some vs → readSeq g as = some vs := by
  intro as
  induction as with
  | nil => intro vs h; exact h
  | cons a as ih =>
    intro vs h
    rw [readSeq] at h ⊢
    cases hfa : f a with
    | none => rw [hfa] at h; exact absurd h (by simp)
    | some v =>
      rw [hfa] at h
      cases hrest : readSeq f as with
      | none => rw [hrest] at h; exact absurd h (by simp)
      | some vs' =>
        rw [hrest] at h
        rw [hfg a v hfa, ih vs' hrest]
        exact h

theorem readKVSeq_mono {f g : Nat → Option JVal}
    (hfg : ∀ a v, f a = some v → g a = some v) :
    ∀ (kvs : List (String × Nat)) (ps : List (String × JVal)),
      readKVSeq f kvs = some ps → readKVSeq g kvs = some ps := by
  intro kvs
  induction kvs with
  | nil => intro ps h; exact h
  | cons kv kvs ih =>
    intro ps h
    rw [readKVSeq] at h ⊢
    cases hfa : f kv.2 with
    | none => rw [hfa] at h; exact absurd h (by simp)
    | some v =>
      rw [hfa] at h
      cases hrest : readKVSeq f kvs with
      | none => rw [hrest] at h; exact absurd h (by simp)
      | some ps' =>
        rw [hrest] at h
        rw [hfg kv.2 v hfa, ih ps' hrest]
        exact h

theorem readSeq_mem {f : Nat → Option JVal} :
    ∀ (as : List Nat) (vs : List JVal), readSeq f as = some vs →
      ∀ a ∈ as, ∃ v, f a = some v := by
  intro as
  induction as with
  | nil => intro vs _ a ha; exact absurd ha (List.not_mem_nil a)
  | cons x xs ih =>
    intro vs h a ha
    rw [readSeq] at h
    cases hfa : f x with
    | none => rw [hfa] at h; exact absurd h (by simp)
    | some v =>
      rw [hfa] at h
      cases hrest : readSeq f xs with
      | none => rw [hrest] at h; exact absurd h (by simp)
      | some vs' =>
        simp only [List.mem_cons] at ha
        rcases ha with ha | ha
        · subst ha; exact ⟨v, hfa⟩
        · exact ih vs' hrest a ha

/-- Reading only depends on the cells below the source heap's length:
any heap agreeing there decodes the same values. -/
theorem readVal_agree : ∀ (fuel : Nat) (h h₂ : Heap),
    (∀ i, i < h.length → h₂[i]? = h[i]?) →
    ∀ (a : Nat) (v : JVal), readVal fuel h a = some v → readVal fuel h₂ a = some v := by
  intro fuel
  induction fuel with
  | zero => intro h h₂ _ a v hv; exact absurd hv (by simp [readVal])
  | succ fuel ih =>
    intro h h₂ hagree a v hv
    rw [readVal] at hv ⊢
    cases hcell : h[a]? with
    | none => rw [hcell] at hv; exact absurd hv (by simp)
    | some cell =>
      have ha : a < h.length := (List.getElem?_eq_some.mp hcell).1
      rw [hcell] at hv
      rw [hagree a ha, hcell]
      cases cell with
      | prim s => exact hv
      | arrObj as =>
        simp only [Option.map_eq_some'] at hv ⊢
        obtain ⟨vs, hvs, hv'⟩ := hv
        exact ⟨vs, readSeq_mono (fun b w hw => ih h h₂ hagree b w hw) as vs hvs, hv'⟩
      | dictObj kvs =>
        simp only [Option.map_eq_some'] at hv ⊢
        obtain ⟨ps, hps, hv'⟩ := hv
        exact ⟨ps, readKVSeq_mono (fun b w hw => ih h h₂ hagree b w hw) kvs ps hps, hv'⟩

/-- Extending the heap on the right preserves every decode. -/
theorem readVal_append (fuel : Nat) (h ext : Heap) (a : Nat) (v : JVal)
    (hv : readVal fuel h a = some v) : readVal fuel (h ++ ext) a = some v :=
  readVal_agree fuel h (h ++ ext)
    (fun _ hi => List.getElem?_append_left hi) a v hv

/-- Mutating any cell at or beyond the source heap's length — in
particular any cell of a freshly appended deep copy — leaves every
decode of the original heap intact. -/
theorem readVal_set_fresh (fuel : Nat) (h ext : Heap) (b : Nat) (w : PyVal)
    (hb : h.length ≤ b) (a : Nat) (v : JVal)
    (hv : readVal fuel h a = some v) :
    readVal fuel ((h ++ ext).set b w) a = some v := by
  refine readVal_agree fuel h ((h ++ ext).set b w) (fun i hi => ?_) a v hv
  rw [List.getElem?_set_ne (by omega), List.getElem?_append_left hi]

/-! ### Deep-copy correctness -/

/-- Generic list version: if the element copier appends fresh faithful
copies, so does `copySeq`. -/
theorem copySeq_spec (f : Heap → Nat → Option (Heap × Nat))
    (rd : Heap → Nat → Option JVal)
    (hf : ∀ h a v, rd h a = some v →
      ∃ ext b, f h a = some (h ++ ext, b) ∧ h.length ≤ b ∧
        rd (h ++ ext) b = some v)
    (hmono : ∀ h ext a v, rd h a = some v → rd (h ++ ext) a = some v) :
    ∀ (as : List Nat) (h : Heap) (vs : List JVal),
      readSeq (rd h) as = some vs →
      ∃ ext bs, copySeq f h as = some (h ++ ext, bs) ∧
        (∀ b ∈ bs, h.length ≤ b) ∧
        readSeq (rd (h ++ ext)) bs = some vs := by
  intro as
  induction as with
  | nil =>
    intro h vs hread
    refine ⟨[], [], ?_, ?_, ?_⟩
    · simp [copySeq]
    · intro b hb; exact absurd hb (List.not_mem_nil b)
    · simp only [List.append_nil]
      exact hread
  | cons a as ih =>
    intro h vs hread
    rw [readSeq] at hread
    cases hva : rd h a with
    | none => rw [hva] at hread; exact absurd hread (by simp)
    | some v =>
      rw [hva] at hread
      cases hvs : readSeq (rd h) as with
      | none => rw [hvs] at hread; exact absurd hread (by simp)
      | some vs' =>
        rw [hvs] at hread
        obtain ⟨ext₁, b, hfb, hble, hbv⟩ := hf h a v hva
        have hvs₂ : readSeq (rd (h ++ ext₁)) as = some vs' :=
          readSeq_mono (fun x w hw => hmono h ext₁ x w hw) as vs' hvs
        obtain ⟨ext₂, bs, hcs, hbsle, hbsv⟩ := ih (h ++ ext₁) vs' hvs₂
        refine ⟨ext₁ ++ ext₂, b :: bs, ?_, ?_, ?_⟩
        · rw [copySeq, hfb]
          simp only [hcs, List.append_assoc]
        · intro x hx
          simp only [List.mem_cons] at hx
          rcases hx with hx | hx
          · subst hx; exact hble
          · have := hbsle x hx
            simp only [List.length_append] at this
            omega
        · rw [readSeq, ← List.append_assoc, hmono (h ++ ext₁) ext₂ b v hbv]
          simp only [hbsv]
          exact hread

theorem copyKVSeq_spec (f : Heap → Nat → Option (Heap × Nat))
    (rd : Heap → Nat → Option JVal)
    (hf : ∀ h a v, rd h a = some v →
      ∃ ext b, f h a = some (h ++ ext, b) ∧ h.length ≤ b ∧
        rd (h ++ ext) b = some v)
    (hmono : ∀ h ext a v, rd h a = some v → rd (h ++ ext) a = some v) :
    ∀ (kvs : List (String × Nat)) (h : Heap) (ps : List (String × JVal)),
      readKVSeq (rd h) kvs = some ps →
      ∃ ext bs, copyKVSeq f h kvs = some (h ++ ext, bs) ∧
        (∀ kv ∈ bs, h.length ≤ kv.2) ∧
        readKVSeq (rd (h ++ ext)) bs = some ps := by
  intro kvs
  induction kvs with
  | nil =>
    intro h ps hread
    refine ⟨[], [], ?_, ?_, ?_⟩
    · simp [copyKVSeq]
    · intro kv hkv; exact absurd hkv (List.not_mem_nil kv)
    · simp only [List.append_nil]
      exact hread
  | cons kv kvs ih =>
    intro h ps hread
    rw [readKVSeq] at hread
    cases hva : rd h kv.2 with
    | none => rw [hva] at hread; exact absurd hread (by simp)
    | some v =>
      rw [hva] at hread
      cases hvs : readKVSeq (rd h) kvs with
      | none => rw [hvs] at hread; exact absurd hread (by simp)
      | some ps' =>
        rw [hvs] at hread
        obtain ⟨ext₁, b, hfb, hble, hbv⟩ := hf h kv.2 v hva
        have hvs₂ : readKVSeq (rd (h ++ ext₁)) kvs = some ps' :=
          readKVSeq_mono (fun x w hw => hmono h ext₁ x w hw) kvs ps' hvs
        obtain ⟨ext₂, bs, hcs, hbsle, hbsv⟩ := ih (h ++ ext₁) ps' hvs₂
        refine ⟨ext₁ ++ ext₂, (kv.1, b) :: bs, ?_, ?_, ?_⟩
        · rw [copyKVSeq, hfb]
          simp only [hcs, List.append_assoc]
        · intro x hx
          simp only [List.mem_cons] at hx
          rcases hx with hx | hx
          · subst hx; exact hble
          · have := hbsle x hx
            simp only [List.length_append] at this
            omega
        · rw [readKVSeq, ← List.append_assoc, hmono (h ++ ext₁) ext₂ b v hbv]
          simp only [hbsv]
          exact hread

/-- `deepcopy` correctness: a decodable object is copied to a fresh
address past the old heap, the old heap is only extended, and the copy
decodes to the same pure value. -/
theorem copyVal_spec : ∀ (fuel : Nat) (h : Heap) (a : Nat) (v : JVal),
    readVal fuel h a = some v →
    ∃ ext b, copyVal fuel h a = some (h ++ ext, b) ∧ h.length ≤ b ∧
      readVal fuel (h ++ ext) b = some v := by
  intro fuel
  induction fuel with
  | zero => intro h a v hv; exact absurd hv (by simp [readVal])
  | succ fuel ih =>
    intro h a v hv
    rw [readVal] at hv
    cases hcell : h[a]? with
    | none => rw [hcell] at hv; exact absurd hv (by simp)
    | some cell =>
      rw [hcell] at hv
      cases cell with
      | prim s =>
        refine ⟨[.prim s], h.length, ?_, le_refl _, ?_⟩
        · rw [copyVal, hcell]
        · rw [readVal, List.getElem?_concat_length]
          exact hv
      | arrObj as =>
        simp only [Option.map_eq_some'] at hv
        obtain ⟨vs, hvs, hv'⟩ := hv
        obtain ⟨ext, bs, hcs, hbsle, hbsv⟩ :=
          copySeq_spec (fun h' b => copyVal fuel h' b) (readVal fuel) ih
            (fun h' e x w hw => readVal_append fuel h' e x w hw) as h vs hvs
        refine ⟨ext ++ [.arrObj bs], (h ++ ext).length, ?_, ?_, ?_⟩
        · rw [copyVal, hcell]
          simp only [hcs, List.append_assoc]
        · simp
        · rw [← List.append_assoc, readVal, List.getElem?_concat_length]
          have hlift : readSeq (fun b => readVal fuel ((h ++ ext) ++ [.arrObj bs]) b) bs =
              some vs :=
            readSeq_mono
              (fun x w hw => readVal_append fuel (h ++ ext) [.arrObj bs] x w hw)
              bs vs hbsv
          simp only [hlift, Option.map_some]
          rw [← hv']
          rfl
      | dictObj kvs =>
        simp only [Option.map_eq_some'] at hv
        obtain ⟨ps, hps, hv'⟩ := hv
        obtain ⟨ext, bs, hcs, hbsle, hbsv⟩ :=
          copyKVSeq_spec (fun h' b => copyVal fuel h' b) (readVal fuel) ih
            (fun h' e x w hw => readVal_append fuel h' e x w hw) kvs h ps hps
        refine ⟨ext ++ [.dictObj bs], (h ++ ext).length, ?_, ?_, ?_⟩
        · rw [copyVal, hcell]
          simp only [hcs, List.append_assoc]
        · simp
        · rw [← List.append_assoc, readVal, List.getElem?_concat_length]
          have hlift : readKVSeq (fun b => readVal fuel ((h ++ ext) ++ [.dictObj bs]) b) bs =
              some ps :=
            readKVSeq_mono
              (fun x w hw => readVal_append fuel (h ++ ext) [.dictObj bs] x w hw)
              bs ps hbsv
          simp only [hlift, Option.map_some]
          rw [← hv']
          rfl

/-! ## Claim C10 — the history accessors return deep copies -/

/-- **C10.** `get_history` deep-copies the stored entries: the VM's heap
is only extended (every pre-existing cell is untouched), the returned
entry addresses are all fresh, they decode to exactly the stored pure
values, and mutating *any* cell of the returned structure (any address
at or past the original heap's end) leaves the decode of the VM's
internal history unchanged.  `get_history_entry` returns a fresh deep
copy of the matched entry with the same guarantees. -/
theorem history_accessors_return_deep_copies (fuel : Nat) (vm : VMHeap)
    (vs : List JVal) (hread : readMany fuel vm.heap vm.history = some vs) :
    (∃ ext bs, vmGetHistory fuel vm = some (vm.heap ++ ext, bs) ∧
      (∀ b ∈ bs, vm.heap.length ≤ b) ∧
      readMany fuel (vm.heap ++ ext) bs = some vs ∧
      (∀ b w, vm.heap.length ≤ b →
        readSeq (fun x => readVal fuel ((vm.heap ++ ext).set b w) x)
          vm.history = some vs)) ∧
    (∀ eid a,
      vm.history.reverse.find? (fun x => entryIdAt vm.heap x == some eid) = some a →
      ∃ ext b v, vmGetHistoryEntry fuel vm eid = some (vm.heap ++ ext, b) ∧
        vm.heap.length ≤ b ∧
        readVal fuel vm.heap a = some v ∧
        readVal fuel (vm.heap ++ ext) b = some v ∧
        (∀ b' w, vm.heap.length ≤ b' →
          readVal fuel ((vm.heap ++ ext).set b' w) a = some v)) := by
  constructor
  · obtain ⟨ext, bs, hcs, hbsle, hbsv⟩ :=
      copySeq_spec (fun h' b => copyVal fuel h' b) (readVal fuel)
        (fun h' x w hw => copyVal_spec fuel h' x w hw)
        (fun h' e x w hw => readVal_append fuel h' e x w hw)
        vm.history vm.heap vs hread
    refine ⟨ext, bs, hcs, hbsle, hbsv, ?_⟩
    intro b w hb
    exact readSeq_mono
      (fun x u hu => readVal_set_fresh fuel vm.heap ext b w hb x u hu)
      vm.history vs hread
  · intro eid a hfind
    have hmem : a ∈ vm.history := by
      have := List.mem_of_find?_eq_some hfind
      exact List.mem_reverse.mp this
    obtain ⟨v, hv⟩ := readSeq_mem vm.history vs hread a hmem
    obtain ⟨ext, b, hcv, hble, hbv⟩ := copyVal_spec fuel vm.heap a v hv
    refine ⟨ext, b, v, ?_, hble, hv, hbv, ?_⟩
    · rw [vmGetHistoryEntry, hfind]
      simp only [hcv]
    · intro b' w hb'
      exact readVal_set_fresh fuel vm.heap ext b' w hb' a v hv

/-- Witness for C10: a two-entry heap where the history holds one dict
entry `{"id": "u-0001", "content": "hello"}`; the accessors are applied
at fuel 3 and at the entry id `"u-0001"`. -/
theorem history_accessors_return_deep_copies_witness :
    readMany 3 [PyVal.prim "u-0001", PyVal.prim "hello",
        PyVal.dictObj [("id", 0), ("content", 1)]] [2] =
      some [JVal.obj [("id", JVal.prim "u-0001"), ("content", JVal.prim "hello")]] ∧
    ((∃ ext bs,
        vmGetHistory 3 (VMHeap.mk [PyVal.prim "u-0001", PyVal.prim "hello",
            PyVal.dictObj [("id", 0), ("content", 1)]] [2]) =
          some ([PyVal.prim "u-0001", PyVal.prim "hello",
            PyVal.dictObj [("id", 0), ("content", 1)]] ++ ext, bs) ∧
        (∀ b ∈ bs, ([PyVal.prim "u-0001", PyVal.prim "hello",
            PyVal.dictObj [("id", 0), ("content", 1)]] : Heap).length ≤ b) ∧
        readMany 3 ([PyVal.prim "u-0001", PyVal.prim "hello",
            PyVal.dictObj [("id", 0), ("content", 1)]] ++ ext) bs =
          some [JVal.obj [("id", JVal.prim "u-0001"), ("content", JVal.prim "hello")]] ∧
        (∀ b w, ([PyVal.prim "u-0001", PyVal.prim "hello",
            PyVal.dictObj [("id", 0), ("content", 1)]] : Heap).length ≤ b →
          readSeq (fun x => readVal 3
              (([PyVal.prim "u-0001", PyVal.prim "hello",
                PyVal.dictObj [("id", 0), ("content", 1)]] ++ ext).set b w) x) [2] =
            some [JVal.obj [("id", JVal.prim "u-0001"),
              ("content", JVal.prim "hello")]])) ∧
      (∀ eid a,
        ([2] : List Nat).reverse.find?
          (fun x => entryIdAt [PyVal.prim "u-0001", PyVal.prim "hello",
            PyVal.dictObj [("id", 0), ("content", 1)]] x == some eid) = some a →
        ∃ ext b v,
          vmGetHistoryEntry 3 (VMHeap.mk [PyVal.prim "u-0001", PyVal.prim "hello",
              PyVal.dictObj [("id", 0), ("content", 1)]] [2]) eid =
            some ([PyVal.prim "u-0001", PyVal.prim "hello",
              PyVal.dictObj [("id", 0), ("content", 1)]] ++ ext, b) ∧
          ([PyVal.prim "u-0001", PyVal.prim "hello",
            PyVal.dictObj [("id", 0), ("content", 1)]] : Heap).length ≤ b ∧
          readVal 3 [PyVal.prim "u-0001", PyVal.prim "hello",
            PyVal.dictObj [("id", 0), ("content", 1)]] a = some v ∧
          readVal 3 ([PyVal.prim "u-0001", PyVal.prim "hello",
            PyVal.dictObj [("id", 0), ("content", 1)]] ++ ext) b = some v ∧
          (∀ b' w, ([PyVal.prim "u-0001", PyVal.prim "hello",
              PyVal.dictObj [("id", 0), ("content", 1)]] : Heap).length ≤ b' →
            readVal 3 (([PyVal.prim "u-0001", PyVal.prim "hello",
              PyVal.dictObj [("id", 0), ("content", 1)]] ++ ext).set b' w) a =
              some v))) :=
  ⟨rfl,
   history_accessors_return_deep_copies 3
     (VMHeap.mk [PyVal.prim "u-0001", PyVal.prim "hello",
       PyVal.dictObj [("id", 0), ("content", 1)]] [2])
     [JVal.obj [("id", JVal.prim "u-0001"), ("content", JVal.prim "hello")]] rfl⟩

end Okcvm
